import Mathlib

/-!
Shallow embedding, in Lean, of the core of the Memorigo repository
(a Go memory layer for LLM conversations): the embedding byte codec,
cosine similarity, the deterministic hash embedder, the entity/fact
repositories, the transactional writer with its retry loop and id cache,
and the similarity search.

Machine integers are modelled as Nat/Int with explicit reductions modulo
powers of two where the Go code overflows; float32/float64 values are
modelled as exact bit patterns where the code only moves bits around
(the byte codec) and as real or rational numbers where the code does
arithmetic on them.  Go strings are modelled as Lean String values
(byte length = String.utf8ByteSize) or as lists of bytes/chars where the
code walks bytes.
-/

set_option maxRecDepth 4000

namespace Memorigo

/-! ## Embedding byte codec (memori/augmentation.go encodeEmbedding,
    storage/repos.go decodeEmbedding)

A float32 component is represented by its 32-bit pattern, a natural
number below 2^32.  A byte is a natural number below 256. -/

/-- encodeEmbedding from memori/augmentation.go: serialize each 32-bit
component little-endian, 4 bytes per component, no header; the empty
vector encodes to the empty byte list (the Go code returns nil). -/
def encodeEmbedding (v : List ℕ) : List ℕ :=
  (v.map fun bits => [bits % 256, bits / 256 % 256, bits / 65536 % 256, bits / 16777216 % 256]).flatten

/-- Little-endian recombination of 4-byte groups, as done by the loop in
decodeEmbedding via binary.LittleEndian.Uint32. -/
def decodeChunks : List ℕ → List ℕ
  | b0 :: b1 :: b2 :: b3 :: rest =>
      (b0 + 256 * b1 + 65536 * b2 + 16777216 * b3) :: decodeChunks rest
  | _ => []

/-- decodeEmbedding from storage/repos.go: a byte list whose length is
zero or not a multiple of 4 yields no vector (the Go code returns nil,
modelled as the empty list); otherwise recombine 4 bytes per component. -/
def decodeEmbedding (b : List ℕ) : List ℕ :=
  if b.length = 0 ∨ b.length % 4 ≠ 0 then [] else decodeChunks b

/-! ## Cosine similarity

storage/repos.go cosineSimilarity (with square roots in the denominator)
and embed/interface.go CosineSimilarity (without them).  float64
arithmetic is modelled over the reals. -/

/-- Sum of pointwise products, modelling the accumulation loops. -/
def dotSum (a b : List ℝ) : ℝ := (List.zipWith (fun x y => x * y) a b).sum

/-- cosineSimilarity from storage/repos.go: 0 on empty or
length-mismatched inputs, 0 when either norm is zero, otherwise
dot / (sqrt(na) * sqrt(nb)). -/
noncomputable def cosineSimilarity (a b : List ℝ) : ℝ :=
  if a.length = 0 ∨ b.length = 0 ∨ a.length ≠ b.length then 0
  else if dotSum a a = 0 ∨ dotSum b b = 0 then 0
  else dotSum a b / (Real.sqrt (dotSum a a) * Real.sqrt (dotSum b b))

/-- CosineSimilarity from embed/interface.go: 0 on length mismatch, 0
when either norm is zero, otherwise dot / (normA * normB) - note the
denominator uses the raw sums of squares, with no square roots. -/
noncomputable def embedPkgCosineSimilarity (a b : List ℝ) : ℝ :=
  if a.length ≠ b.length then 0
  else if dotSum a a = 0 ∨ dotSum b b = 0 then 0
  else dotSum a b / (dotSum a a * dotSum b b)

/-! ## Deterministic hash embedder (memori/embed.go embedText, identical
    to embed/hash_embedder.go HashEmbedder.embedText with dimension 64)

The Go code iterates the runes of the text with the byte offset as loop
index, hashes the rune UTF-8 bytes with 64-bit FNV-1a, converts the
unsigned hash to a signed int64, takes the Go (truncated) remainder by
1000, and adds remainder/1000 to the accumulator at position
(byte offset mod 64).  A text is modelled as the list of its runes, each
rune as its list of UTF-8 bytes; the float32 accumulation is modelled
exactly over the rationals. -/

/-- One step of 64-bit FNV-1a: xor in the byte, multiply by the FNV
prime, reduce modulo 2^64. -/
def fnv1aStep (h b : ℕ) : ℕ := ((h ^^^ b) * 1099511628211) % 18446744073709551616

/-- 64-bit FNV-1a over a byte list, starting from the offset basis. -/
def fnv1a64 (bs : List ℕ) : ℕ := bs.foldl fnv1aStep 14695981039346656037

/-- Reinterpret an unsigned 64-bit value as a signed int64, as the Go
conversion int64(h.Sum64()) does. -/
def int64OfUInt64 (h : ℕ) : ℤ :=
  if h < 9223372036854775808 then (h : ℤ) else (h : ℤ) - 18446744073709551616

/-- The per-rune accumulator contribution float32(val % 1000) / 1000.0,
where val is the signed FNV-1a hash of the rune bytes and % is the Go
truncated remainder. -/
def charContribution (c : List ℕ) : ℚ :=
  ((Int.tmod (int64OfUInt64 (fnv1a64 c)) 1000 : ℤ) : ℚ) / 1000

/-- The loop of embedText: walk the runes, keeping the current byte
offset i, and add each contribution at accumulator position i mod 64. -/
def embedTextAux : List (List ℕ) → ℕ → List ℚ → List ℚ
  | [], _, v => v
  | c :: rest, i, v =>
      embedTextAux rest (i + c.length) (v.set (i % 64) (v.getD (i % 64) 0 + charContribution c))

/-- embedText from memori/embed.go: dimension-64 accumulator, all zero
for empty text, otherwise filled by the rune loop. -/
def embedText (text : List (List ℕ))  : List ℚ :=
  embedTextAux text 0 (List.replicate 64 0)

/-- Each rune paired with its byte offset, as produced by ranging over a
Go string: the offset advances by the byte length of the rune. -/
def charOffsets : List (List ℕ) → ℕ → List (ℕ × List ℕ)
  | [], _ => []
  | c :: rest, i => (i, c) :: charOffsets rest (i + c.length)

/-! ## Entity repository (storage/repos.go sqlEntityRepo /
    mongoEntityRepo)

The entity table is a list of rows; the unique constraint on external_id
is the one the migrations install.  A lookup scans in order, as the
backend index does for a unique key. -/

/-- One row of memori_entity (the uuid and creation time play no role in
the claims and are omitted). -/
structure EntityRow where
  id : ℤ
  externalID : String
deriving DecidableEq, Repr

/-- GetByExternalID: the id of the row holding the external id, if any. -/
def getByExternalID (s : List EntityRow) (e : String) : Option ℤ :=
  (s.find? fun r => r.externalID == e).map fun r => r.id

/-- Result of one Create call: the returned id, the table afterwards,
and whether an error escaped to the caller. -/
structure CreateOutcome where
  id : ℤ
  table : List EntityRow
  errored : Bool
deriving DecidableEq, Repr

/-- Create from storage/repos.go: try the lookup first; on a miss run
the INSERT, which hits the unique constraint exactly when a row for the
external id exists at insert time; on that conflict fall back to the
lookup.  interloper models a concurrent writer slipping a row in between
the lookup and the INSERT (the race the fallback exists for); fresh is
the id the backend would assign to a new row. -/
def entityCreate (s : List EntityRow) (e : String) (fresh : ℤ) (interloper : Option ℤ) :
    CreateOutcome :=
  match getByExternalID s e with
  | some id => ⟨id, s, false⟩
  | none =>
    let s1 : List EntityRow := match interloper with
      | some iid => s ++ [⟨iid, e⟩]
      | none => s
    if s1.any fun r => r.externalID == e then
      match getByExternalID s1 e with
      | some id => ⟨id, s1, false⟩
      | none => ⟨0, s1, true⟩
    else ⟨fresh, s1 ++ [⟨fresh, e⟩], false⟩

/-- A sequence of further Create calls for the same external id, each
with its own fresh id and optional interloper, threading the table. -/
def entityCreateRuns (s : List EntityRow) (e : String) :
    List (ℤ × Option ℤ) → List CreateOutcome
  | [] => []
  | (fresh, intl) :: rest =>
      let o := entityCreate s e fresh intl
      o :: entityCreateRuns o.table e rest

/-! ## Fact repository (storage/repos.go sqlEntityFactRepo /
    mongoEntityFactRepo) -/

/-- One row of memori_entity_fact. -/
structure FactRow where
  entityID : ℤ
  content : String
  embedding : List ℕ
  numTimes : ℤ
  dateLastTime : ℤ
  uniq : String
  dateCreated : ℤ
  dateUpdated : Option ℤ
deriving DecidableEq, Repr

/-- The (entity_id, uniq) key the unique index enforces. -/
def factKeyMatches (eid : ℤ) (u : String) (r : FactRow) : Bool :=
  r.entityID == eid && r.uniq == u

/-- sqlEntityFactRepo.Upsert: INSERT .. ON CONFLICT(entity_id, uniq) DO
UPDATE SET num_times = num_times + 1, date_last_time = now,
date_updated = now.  The conflict clause does not touch content or
content_embedding. -/
def sqlFactUpsert (table : List FactRow) (eid : ℤ) (content : String) (emb : List ℕ)
    (u : String) (now : ℤ) : List FactRow :=
  if table.any (factKeyMatches eid u) then
    table.map fun r =>
      if factKeyMatches eid u r then
        { r with numTimes := r.numTimes + 1, dateLastTime := now, dateUpdated := some now }
      else r
  else table ++ [⟨eid, content, emb, 1, now, u, now, none⟩]

/-- mongoEntityFactRepo.Upsert: UpdateOne with upsert on the
(entity_id, uniq) filter; the update sets content, content_embedding,
date_last_time and date_updated and increments num_times by 1; on insert
the increment lands on a missing field, giving num_times = 1, and
setOnInsert supplies date_created. -/
def mongoFactUpsert (table : List FactRow) (eid : ℤ) (content : String) (emb : List ℕ)
    (u : String) (now : ℤ) : List FactRow :=
  if table.any (factKeyMatches eid u) then
    table.map fun r =>
      if factKeyMatches eid u r then
        { r with content := content, embedding := emb, numTimes := r.numTimes + 1,
                 dateLastTime := now, dateUpdated := some now }
      else r
  else table ++ [⟨eid, content, emb, 1, now, u, now, some now⟩]

/-! ## Similarity search (storage/repos.go SearchByEmbedding, SQL and
    Mongo variants share the scan / score / sort / truncate logic)

Scores are float64 values modelled as reals.  val interprets a stored
32-bit float pattern as its real value (math.Float32frombits); it is a
parameter so no IEEE semantics need to be fixed here. -/

/-- One entry of the result slice. -/
structure FactResult where
  content : String
  score : ℝ
  numTimes : ℤ
  dateLastTime : ℤ

/-- The comparator sort.Slice is given, as a non-strict order: higher
score first, and among equal scores the more recent date_last_time
first.  A sorted output is exactly one whose every pair satisfies
this relation in order. -/
def factLE (x y : FactResult) : Prop :=
  x.score > y.score ∨ (x.score = y.score ∧ x.dateLastTime ≥ y.dateLastTime)

noncomputable instance : DecidableRel factLE := fun _ _ => Classical.propDecidable _

instance : IsTotal FactResult factLE where
  total x y := by
    rcases lt_trichotomy x.score y.score with h | h | h
    · exact Or.inr (Or.inl h)
    · rcases le_total y.dateLastTime x.dateLastTime with h2 | h2
      · exact Or.inl (Or.inr ⟨h, h2⟩)
      · exact Or.inr (Or.inr ⟨h.symm, h2⟩)
    · exact Or.inl (Or.inl h)

instance : IsTrans FactResult factLE where
  trans x y z hxy hyz := by
    rcases hxy with h1 | ⟨h1, h1d⟩
    · rcases hyz with h2 | ⟨h2, _⟩
      · exact Or.inl (h2.trans h1)
      · exact Or.inl (h2 ▸ h1)
    · rcases hyz with h2 | ⟨h2, h2d⟩
      · exact Or.inl (h2.trans_eq h1.symm)
      · exact Or.inr ⟨h1.trans h2, le_trans h2d h1d⟩

/-- The candidate fetch: WHERE entity_id = eid LIMIT scanLimit, over the
fact table in storage order. -/
def searchCandidates (table : List FactRow) (eid : ℤ) (scanLimit : ℕ) : List FactRow :=
  (table.filter fun r => r.entityID == eid).take scanLimit

/-- Scoring one fetched row: decode the stored bytes and take the cosine
similarity against the query vector. -/
noncomputable def scoreFact (val : ℕ → ℝ) (query : List ℝ) (r : FactRow) : FactResult :=
  ⟨r.content, cosineSimilarity query ((decodeEmbedding r.embedding).map val),
   r.numTimes, r.dateLastTime⟩

/-- SearchByEmbedding: fetch up to scanLimit rows for the identity,
score each, sort by the comparator (sort.Slice is modelled by insertion
sort - any sorting algorithm yields an output sorted under factLE), and
truncate to the first limit entries. -/
noncomputable def searchByEmbedding (val : ℕ → ℝ) (table : List FactRow) (eid : ℤ)
    (query : List ℝ) (limit scanLimit : ℕ) : List FactResult :=
  (List.insertionSort factLE ((searchCandidates table eid scanLimit).map (scoreFact val query))).take limit

/-! ## Writer retry loop (migrations_mongo.go source section: Writer.Execute,
    isRetriableError, contains, indexOfSubstring)

An attempt of the transaction is summarised by the error it returns
(none on success); errs gives the outcome of each attempt.  The model
returns the call result together with the list of backoff sleeps in
milliseconds. -/

/-- maxRetries constant. -/
def maxRetries : ℕ := 3

/-- retryBackoffBase constant, in milliseconds. -/
def retryBackoffBaseMs : ℕ := 100

/-- The comparison s slice i to i+len == substr of indexOfSubstring. -/
def matchesAt (s sub : List Char) (i : ℕ) : Bool :=
  (s.drop i).take sub.length == sub

/-- indexOfSubstring: first index whose slice equals the pattern, -1
when none; the Go loop runs i from 0 through len(s) - len(substr). -/
def indexOfSubstringGo (s sub : List Char) : ℤ :=
  match (List.range (s.length - sub.length + 1)).find? (matchesAt s sub) with
  | some i => (i : ℤ)
  | none => -1

/-- contains, as written in the source. -/
def containsGo (s sub : List Char) : Bool :=
  decide (sub.length ≤ s.length) &&
    (s == sub || sub.length == 0 || decide (0 ≤ indexOfSubstringGo s sub))

/-- isRetriableError: nil is not retriable; otherwise substring-match
the error text against the two transient-conflict phrases. -/
def isRetriableError : Option String → Bool
  | none => false
  | some e =>
      containsGo e.data ("restart transaction").data ||
        containsGo e.data ("serialization failure").data

/-- The attempt loop of Writer.Execute: at each attempt run the
transaction; stop on success; on a retriable error before the last
attempt sleep base * 2^attempt and go round again; otherwise return the
error.  Falling out of the loop yields the max-retries error.  fuel
counts the remaining loop iterations (maxRetries at the top call). -/
def executeAttempts (errs : ℕ → Option String) : ℕ → ℕ → Option String × List ℕ
  | 0, _ => (some "max retries exceeded", [])
  | fuel + 1, attempt =>
    match errs attempt with
    | none => (none, [])
    | some e =>
      if isRetriableError (some e) && decide (attempt < maxRetries - 1) then
        let r := executeAttempts errs fuel (attempt + 1)
        (r.1, retryBackoffBaseMs * 2 ^ attempt :: r.2)
      else (some e, [])

/-- Writer.Execute, given the per-attempt outcomes: the returned error
(none on success) and the backoff sleeps performed. -/
def writerExecute (errs : ℕ → Option String) : Option String × List ℕ :=
  executeAttempts errs maxRetries 0

/-! ## Writer transaction (migrations_mongo.go source section:
    Writer.executeTransaction, Writer.ensureCachedID; config.go Cache)

The storage backend is modelled as one Store value holding the tables,
a fresh-id counter standing for the backend id assignment, and the
current time (in minutes, the unit of the conversation TTL comparison).
The repository create calls are the sequential semantics of the Go
repositories: lookup first (or insert with fallback lookup on the
unique-constraint conflict, which without a concurrent writer resolves
to the same result), insert on a miss. -/

/-- One row of memori_session. -/
structure SessionRow where
  id : ℤ
  uuid : String
  entityID : Option ℤ
  processID : Option ℤ
deriving DecidableEq, Repr

/-- One row of memori_conversation. -/
structure ConversationRow where
  id : ℤ
  sessionID : ℤ
  dateCreated : ℤ
  summary : Option String
  dateUpdated : Option ℤ
deriving DecidableEq, Repr

/-- One row of memori_conversation_message. -/
structure MessageRow where
  conversationID : ℤ
  role : String
  msgType : String
  content : String
deriving DecidableEq, Repr

/-- The backend state the writer touches. -/
structure Store where
  entities : List EntityRow
  processes : List EntityRow
  sessions : List SessionRow
  conversations : List ConversationRow
  messages : List MessageRow
  nextID : ℤ
  now : ℤ
deriving DecidableEq, Repr

/-- repos.Entity().Create: get-or-create on external_id (sequential
semantics of sqlEntityRepo.Create / mongoEntityRepo.Create; the raced
fallback path is modelled by entityCreate above). -/
def storeEntityCreate (st : Store) (e : String) : ℤ × Store :=
  match getByExternalID st.entities e with
  | some id => (id, st)
  | none =>
      (st.nextID,
       { st with entities := st.entities ++ [⟨st.nextID, e⟩], nextID := st.nextID + 1 })

/-- repos.Process().Create: sqlProcessRepo.Create runs the INSERT first
and falls back to the lookup on the unique-constraint error, which
sequentially resolves to the same get-or-create result. -/
def storeProcessCreate (st : Store) (e : String) : ℤ × Store :=
  match getByExternalID st.processes e with
  | some id => (id, st)
  | none =>
      (st.nextID,
       { st with processes := st.processes ++ [⟨st.nextID, e⟩], nextID := st.nextID + 1 })

/-- repos.Session().Create: get-or-create keyed by the session uuid;
the entity and process links are stored on first creation only. -/
def storeSessionCreate (st : Store) (ent pr : Option ℤ) (u : String) : ℤ × Store :=
  match (st.sessions.find? fun r => r.uuid == u).map fun r => r.id with
  | some id => (id, st)
  | none =>
      (st.nextID,
       { st with sessions := st.sessions ++ [⟨st.nextID, u, ent, pr⟩], nextID := st.nextID + 1 })

/-- The most recently created conversation of a session (ORDER BY
date_created DESC LIMIT 1; among equal timestamps the later row). -/
def latestConversation (convs : List ConversationRow) (sid : ℤ) : Option ConversationRow :=
  (convs.filter fun r => r.sessionID == sid).foldl
    (fun acc r => match acc with
      | none => some r
      | some a => if a.dateCreated ≤ r.dateCreated then some r else some a) none

/-- repos.Conversation().Create: reuse the latest conversation of the
session while its age is under the TTL, otherwise insert a new row. -/
def storeConversationCreate (st : Store) (sid : ℤ) (ttlMinutes : ℤ) : ℤ × Store :=
  let inserted : ℤ × Store :=
    (st.nextID,
     { st with conversations := st.conversations ++ [⟨st.nextID, sid, st.now, none, none⟩],
               nextID := st.nextID + 1 })
  match latestConversation st.conversations sid with
  | some r => if st.now - r.dateCreated < ttlMinutes then (r.id, st) else inserted
  | none => inserted

/-- The per-configuration id cache (config.go Cache). -/
structure IdCache where
  conversationID : Option ℤ
  entityID : Option ℤ
  processID : Option ℤ
  sessionID : Option ℤ
deriving DecidableEq, Repr

/-- The read half of the switch on the cache key string in
ensureCachedID. -/
def cacheLookup (c : IdCache) (key : String) : Option ℤ :=
  if key == "entity_id" then c.entityID
  else if key == "process_id" then c.processID
  else if key == "session_id" then c.sessionID
  else if key == "conversation_id" then c.conversationID
  else none

/-- The write half of the switch on the cache key string. -/
def cacheStore (c : IdCache) (key : String) (id : ℤ) : IdCache :=
  if key == "entity_id" then { c with entityID := some id }
  else if key == "process_id" then { c with processID := some id }
  else if key == "session_id" then { c with sessionID := some id }
  else if key == "conversation_id" then { c with conversationID := some id }
  else c

/-- Result of one ensureCachedID call; invoked records whether the
repository createFunc was run (false when the cache served the id). -/
structure EnsureResult where
  id : ℤ
  cache : IdCache
  store : Store
  invoked : Bool
deriving DecidableEq, Repr

/-- Writer.ensureCachedID: serve the id from the cache when present,
otherwise run the create function and record its result in the cache. -/
def ensureCachedID (c : IdCache) (key : String) (createFunc : Store → ℤ × Store)
    (st : Store) : EnsureResult :=
  match cacheLookup c key with
  | some id => ⟨id, c, st, false⟩
  | none =>
      let r := createFunc st
      ⟨r.1, cacheStore c key r.1, r.2, true⟩

/-- The configuration fields the transaction reads. -/
structure WriterConfig where
  entityID : String
  processID : String
  sessionUUID : String
  sessionTTLMinutes : ℤ
deriving DecidableEq, Repr

/-- One conversational turn of the payload. -/
structure WMessage where
  role : String
  msgType : String
  content : String
deriving DecidableEq, Repr

/-- ConversationPayload: the message list and the optional response. -/
structure WriterPayload where
  messages : List WMessage
  response : Option WMessage
deriving DecidableEq, Repr

/-- Result of one executeTransaction call; the four invoked flags record
which id resolutions ran their repository create (entity, process,
session, conversation, in that order). -/
structure ExecResult where
  conversationID : ℤ
  cache : IdCache
  store : Store
  invokedEntity : Bool
  invokedProcess : Bool
  invokedSession : Bool
  invokedConversation : Bool
deriving DecidableEq, Repr

/-- The id-resolution prefix of executeTransaction: entity and process
ids (each only when the configured external id is non-empty), then the
session id, then the conversation id, each through ensureCachedID. -/
def resolveIDs (cfg : WriterConfig) (c : IdCache) (st : Store) : ExecResult :=
  let e : Option ℤ × IdCache × Store × Bool :=
    if cfg.entityID ≠ "" then
      let r := ensureCachedID c "entity_id" (fun s => storeEntityCreate s cfg.entityID) st
      (some r.id, r.cache, r.store, r.invoked)
    else (none, c, st, false)
  let p : Option ℤ × IdCache × Store × Bool :=
    if cfg.processID ≠ "" then
      let r := ensureCachedID e.2.1 "process_id" (fun s => storeProcessCreate s cfg.processID) e.2.2.1
      (some r.id, r.cache, r.store, r.invoked)
    else (none, e.2.1, e.2.2.1, false)
  let rs := ensureCachedID p.2.1 "session_id"
    (fun s => storeSessionCreate s e.1 p.1 cfg.sessionUUID) p.2.2.1
  let rc := ensureCachedID rs.cache "conversation_id"
    (fun s => storeConversationCreate s rs.id cfg.sessionTTLMinutes) rs.store
  ⟨rc.id, rc.cache, rc.store, e.2.2.2, p.2.2.2, rs.invoked, rc.invoked⟩

/-- The message-writing loop: every message of the list whose role is
not "system" is appended to the message store. -/
def writeNonSystemMessages (msgs : List WMessage) (cid : ℤ) (rows : List MessageRow) :
    List MessageRow :=
  match msgs with
  | [] => rows
  | msg :: rest =>
      if msg.role ≠ "system" then
        writeNonSystemMessages rest cid (rows ++ [⟨cid, msg.role, msg.msgType, msg.content⟩])
      else writeNonSystemMessages rest cid rows

/-- Writer.executeTransaction: resolve the four ids, write the
non-system messages, then write the response message when present (the
response write has no role check).  The fire-and-forget augmentation
enqueue touches no storage inside the transaction and is omitted. -/
def executeTransaction (cfg : WriterConfig) (c : IdCache) (st : Store)
    (p : WriterPayload) : ExecResult :=
  let r := resolveIDs cfg c st
  let msgs1 := writeNonSystemMessages p.messages r.conversationID r.store.messages
  let msgs2 : List MessageRow := match p.response with
    | some resp => msgs1 ++ [⟨r.conversationID, resp.role, resp.msgType, resp.content⟩]
    | none => msgs1
  { r with store := { r.store with messages := msgs2 } }

/-! ## Attribution (memori/memori.go Memori.Attribution)

Go len on a string counts bytes, i.e. String.utf8ByteSize.  A panic is
modelled as none. -/

/-- The configuration fields Attribution touches. -/
structure MemoriConfig where
  entityID : String
  processID : String
deriving DecidableEq, Repr

/-- Memori.Attribution: panic when either id exceeds 100 bytes,
otherwise store both ids in the configuration. -/
def attribution (c : MemoriConfig) (entityID processID : String) : Option MemoriConfig :=
  if entityID.utf8ByteSize > 100 then none
  else if processID.utf8ByteSize > 100 then none
  else some { c with entityID := entityID, processID := processID }

/-! ## Theorems -/

theorem encodeEmbedding_cons (x : ℕ) (xs : List ℕ) :
    encodeEmbedding (x :: xs) =
      x % 256 :: x / 256 % 256 :: x / 65536 % 256 :: x / 16777216 % 256 :: encodeEmbedding xs := rfl

theorem encodeEmbedding_length (v : List ℕ) : (encodeEmbedding v).length = 4 * v.length := by
  induction v with
  | nil => rfl
  | cons x xs ih => rw [encodeEmbedding_cons]; simp only [List.length_cons, ih]; omega

theorem decodeChunks_encodeEmbedding (v : List ℕ) (h : ∀ x ∈ v, x < 4294967296) :
    decodeChunks (encodeEmbedding v) = v := by
  induction v with
  | nil => rfl
  | cons x xs ih =>
    have hx : x < 4294967296 := h x (by simp)
    have hxs : ∀ y ∈ xs, y < 4294967296 := fun y hy => h y (by simp [hy])
    rw [encodeEmbedding_cons, decodeChunks, ih hxs]
    congr 1
    omega

/-- C7: decoding the little-endian byte encoding of a float32 vector
reproduces every component bit pattern exactly; the empty vector encodes
to the empty byte sequence; and a byte sequence whose length is not a
multiple of 4 decodes to no vector (the nil result), not an error. -/
theorem c7_embedding_codec :
    (∀ v : List ℕ, (∀ x ∈ v, x < 4294967296) → decodeEmbedding (encodeEmbedding v) = v)
    ∧ encodeEmbedding [] = []
    ∧ ∀ b : List ℕ, b.length % 4 ≠ 0 → decodeEmbedding b = [] := by
  refine ⟨?_, rfl, ?_⟩
  · intro v hv
    cases v with
    | nil => rfl
    | cons x xs =>
      have hlen : (encodeEmbedding (x :: xs)).length = 4 * (xs.length + 1) := by
        simpa using encodeEmbedding_length (x :: xs)
      rw [decodeEmbedding, if_neg (by rw [hlen]; omega)]
      exact decodeChunks_encodeEmbedding _ hv
  · intro b hb
    rw [decodeEmbedding, if_pos (Or.inr hb)]

theorem c7_embedding_codec_witness :
    decodeEmbedding (encodeEmbedding [1, 4294967295]) = [1, 4294967295]
    ∧ decodeEmbedding [0, 1, 2] = [] :=
  ⟨c7_embedding_codec.1 [1, 4294967295] (by decide), c7_embedding_codec.2.2 [0, 1, 2] (by decide)⟩

/-- C8: at the vector [2.0] the embed package CosineSimilarity returns
dot / (normA * normB) = 4 / 16 = 1/4 on itself - not approximately 1 -
because its denominator is missing the square roots, while the storage
cosineSimilarity returns exactly 1 on the same input. -/
theorem c8_cosine_divergence :
    embedPkgCosineSimilarity [2] [2] = 1 / 4
    ∧ embedPkgCosineSimilarity [2] [2] ≠ 1
    ∧ cosineSimilarity [2] [2] = 1 := by
  have hdot : dotSum [2] [2] = 4 := by norm_num [dotSum]
  have h1 : embedPkgCosineSimilarity [2] [2] = 1 / 4 := by
    rw [embedPkgCosineSimilarity, if_neg (by simp), if_neg (by rw [hdot]; norm_num), hdot]
    norm_num
  refine ⟨h1, by rw [h1]; norm_num, ?_⟩
  rw [cosineSimilarity, if_neg (by simp), if_neg (by rw [hdot]; norm_num), hdot,
    Real.mul_self_sqrt (by norm_num)]
  norm_num

/-- Supporting fact: the storage cosineSimilarity of any vector with a
non-zero sum of squares against itself is exactly 1 in the real model. -/
theorem cosineSimilarity_self (v : List ℝ) (h : dotSum v v ≠ 0) :
    cosineSimilarity v v = 1 := by
  have hv : v.length ≠ 0 := by
    intro hlen
    rw [List.length_eq_zero] at hlen
    subst hlen
    simp [dotSum] at h
  have hnn : 0 ≤ dotSum v v := by
    rw [dotSum, List.zipWith_same]
    exact List.sum_nonneg (by intro x hx; rcases List.mem_map.mp hx with ⟨y, _, rfl⟩; exact mul_self_nonneg y)
  rw [cosineSimilarity, if_neg (by simp [hv]), if_neg (by simp [h]),
    Real.mul_self_sqrt hnn, div_self h]

/-- C1: after two upserts for the same (entity, fingerprint) pair with
different content, the SQL implementation keeps the first content and
embedding (its ON CONFLICT clause updates only num_times,
date_last_time and date_updated), while the Mongo implementation
replaces them; both increment num_times to 2, refresh the recency
timestamp, and keep a single row. -/
theorem c1_sql_upsert_conflict_divergence :
    ((sqlFactUpsert (sqlFactUpsert [] 1 "old" [0] "u" 10) 1 "new" [1] "u" 20).map
        fun r => (r.content, r.embedding, r.numTimes, r.dateLastTime)) = [("old", [0], 2, 20)]
    ∧ ((mongoFactUpsert (mongoFactUpsert [] 1 "old" [0] "u" 10) 1 "new" [1] "u" 20).map
        fun r => (r.content, r.embedding, r.numTimes, r.dateLastTime)) = [("new", [1], 2, 20)] := by
  decide

/-- C4 counterexample: when every attempt fails with the transient
"restart transaction" error, Execute performs the two backoff sleeps
(100ms, 200ms) and then returns that transient error itself - the
"max retries exceeded" return is unreachable. -/
theorem c4_counterexample :
    writerExecute (fun _ => some "restart transaction") =
      (some "restart transaction", [100, 200])
    ∧ (writerExecute fun _ => some "restart transaction").1 ≠ some "max retries exceeded" := by
  decide

theorem tmod_bounds_1000 (x : ℤ) : -1000 < Int.tmod x 1000 ∧ Int.tmod x 1000 < 1000 := by
  cases x with
  | ofNat m =>
    have h1 : Int.tmod (Int.ofNat m) 1000 = ((m % 1000 : ℕ) : ℤ) := rfl
    rw [h1]; omega
  | negSucc m =>
    have h1 : Int.tmod (Int.negSucc m) 1000 = -(((m + 1) % 1000 : ℕ) : ℤ) := rfl
    rw [h1]; omega

theorem charContribution_bounds (c : List ℕ) :
    -1 < charContribution c ∧ charContribution c < 1 := by
  have h := tmod_bounds_1000 (int64OfUInt64 (fnv1a64 c))
  rw [charContribution]
  constructor
  · rw [lt_div_iff₀ (by norm_num : (0 : ℚ) < 1000)]
    have : (-1000 : ℚ) < ((Int.tmod (int64OfUInt64 (fnv1a64 c)) 1000 : ℤ) : ℚ) := by
      exact_mod_cast h.1
    linarith
  · rw [div_lt_one (by norm_num : (0 : ℚ) < 1000)]
    exact_mod_cast h.2

theorem getD_set_self_q (v : List ℚ) (k : ℕ) (x : ℚ) (hk : k < v.length) :
    (v.set k x).getD k 0 = x := by
  simp [List.getD_eq_getElem?_getD, List.getElem?_set_eq_of_lt x hk]

theorem getD_set_ne_q (v : List ℚ) (k j : ℕ) (x : ℚ) (h : k ≠ j) :
    (v.set k x).getD j 0 = v.getD j 0 := by
  simp [List.getD_eq_getElem?_getD, List.getElem?_set_ne h]

theorem getD_replicate_zero (n j : ℕ) : (List.replicate n (0 : ℚ)).getD j 0 = 0 := by
  simp only [List.getD_eq_getElem?_getD, List.getElem?_replicate]
  split <;> rfl

theorem embedTextAux_getD (text : List (List ℕ)) :
    ∀ (i : ℕ) (v : List ℚ), v.length = 64 → ∀ j, j < 64 →
      (embedTextAux text i v).getD j 0 =
        v.getD j 0 +
          (((charOffsets text i).filter fun pr => pr.1 % 64 == j).map
            fun pr => charContribution pr.2).sum := by
  induction text with
  | nil => intro i v _ j _; simp [embedTextAux, charOffsets]
  | cons c rest ih =>
    intro i v hv j hj
    rw [embedTextAux, ih (i + c.length) _ (by simp [hv]) j hj, charOffsets]
    by_cases hij : i % 64 = j
    · rw [List.filter_cons_of_pos (by simpa using hij)]
      rw [hij, getD_set_self_q _ _ _ (by rw [hv]; exact hj)]
      simp [add_assoc]
    · rw [List.filter_cons_of_neg (by simpa using hij)]
      rw [getD_set_ne_q _ _ _ _ hij]

theorem embedText_getD (text : List (List ℕ)) (j : ℕ) (hj : j < 64) :
    (embedText text).getD j 0 =
      (((charOffsets text 0).filter fun pr => pr.1 % 64 == j).map
        fun pr => charContribution pr.2).sum := by
  rw [embedText, embedTextAux_getD text 0 _ (by simp) j hj, getD_replicate_zero, zero_add]

theorem charContribution_a : charContribution [97] = -31 / 50 := by
  have hfnv : fnv1a64 [97] = 12638187200555641996 := by decide
  have h1 : int64OfUInt64 (fnv1a64 [97]) = -5808556873153909620 := by
    rw [hfnv, int64OfUInt64, if_neg (by decide)]
    decide
  have h2 : Int.tmod (-5808556873153909620 : ℤ) 1000 = -620 := by decide
  rw [charContribution, h1, h2]
  norm_num

/-- C9 counterexample: the per-character contribution of the character a
(FNV-1a hash reinterpreted as a signed int64, truncated remainder by
1000, over 1000) is -31/50, which is negative, so it does not lie in
[0,1); and in the two-character text pi-a the contribution of a lands at
accumulator position 2 (its byte offset), not position 1 (its character
index). -/
theorem c9_counterexample :
    charContribution [97] = -31 / 50
    ∧ charContribution [97] < 0
    ∧ (embedText [[207, 128], [97]]).getD 1 0 = 0
    ∧ (embedText [[207, 128], [97]]).getD 2 0 = charContribution [97] := by
  have h3 : (embedText [[207, 128], [97]]).getD 1 0 = 0 := by
    rw [embedText_getD _ 1 (by norm_num)]
    rfl
  have h4 : (embedText [[207, 128], [97]]).getD 2 0 = charContribution [97] := by
    rw [embedText_getD _ 2 (by norm_num)]
    simp [charOffsets]
  exact ⟨charContribution_a, by rw [charContribution_a]; norm_num, h3, h4⟩

/-- C9 amended: the default hash embedding iterates the runes of the
text; each rune is hashed independently (64-bit FNV-1a of its UTF-8
bytes); the contribution added for a rune is (int64(hash) tmod 1000) /
1000, which lies strictly between -1 and 1 but can be negative; it is
added at accumulator position (byte offset of the rune mod 64); and
empty text yields the all-zero 64-dimension vector.  Position j of the
result is the sum of the contributions of the runes whose byte offset is
congruent to j mod 64. -/
theorem c9_hash_embedding :
    (∀ c : List ℕ, -1 < charContribution c ∧ charContribution c < 1)
    ∧ embedText [] = List.replicate 64 0
    ∧ ∀ text : List (List ℕ), ∀ j : ℕ, j < 64 →
        (embedText text).getD j 0 =
          (((charOffsets text 0).filter fun pr => pr.1 % 64 == j).map
            fun pr => charContribution pr.2).sum :=
  ⟨charContribution_bounds, rfl, embedText_getD⟩

theorem c9_hash_embedding_witness :
    (-1 < charContribution [97] ∧ charContribution [97] < 1)
    ∧ (embedText [[97]]).getD 1 0 =
        (((charOffsets [[97]] 0).filter fun pr => pr.1 % 64 == 1).map
          fun pr => charContribution pr.2).sum :=
  ⟨c9_hash_embedding.1 [97], c9_hash_embedding.2.2 [[97]] 1 (by norm_num)⟩

/-- C5 counterexample: a payload whose response message carries the
system role is persisted by executeTransaction, so a system-role row
reaches the message store. -/
theorem c5_counterexample :
    ((executeTransaction ⟨"user-1", "proc-1", "sess-1", 30⟩ ⟨none, none, none, none⟩
        ⟨[], [], [], [], [], 1, 0⟩ ⟨[], some ⟨"system", "text", "oops"⟩⟩).store.messages).map
      (fun m => m.role) = ["system"] := by
  decide

theorem entityCreate_of_found (s : List EntityRow) (e : String) (fresh : ℤ) (intl : Option ℤ)
    (id : ℤ) (h : getByExternalID s e = some id) :
    entityCreate s e fresh intl = ⟨id, s, false⟩ := by
  rw [entityCreate.eq_def, h]

theorem entityCreate_spec (s : List EntityRow) (e : String) (fresh : ℤ) (intl : Option ℤ) :
    (entityCreate s e fresh intl).errored = false
    ∧ getByExternalID (entityCreate s e fresh intl).table e
        = some (entityCreate s e fresh intl).id := by
  rcases h : getByExternalID s e with _ | id
  · have hf : (s.find? fun r => r.externalID == e) = none := by
      rcases hf2 : s.find? fun r => r.externalID == e with _ | r
      · exact hf2
      · rw [getByExternalID, hf2] at h; cases h
    cases intl with
    | none =>
      have hfa : ∀ x ∈ s, ¬(x.externalID == e) = true := List.find?_eq_none.mp hf
      have hany : (s.any fun r => r.externalID == e) = false := List.any_eq_false.mpr hfa
      have hres : entityCreate s e fresh none = ⟨fresh, s ++ [⟨fresh, e⟩], false⟩ := by
        rw [entityCreate.eq_def, h]
        simp [hany]
      rw [hres]
      refine ⟨rfl, ?_⟩
      show getByExternalID (s ++ [⟨fresh, e⟩]) e = some fresh
      rw [getByExternalID, List.find?_append, hf]
      simp [getByExternalID]
    | some iid =>
      have hget : getByExternalID (s ++ [⟨iid, e⟩]) e = some iid := by
        rw [getByExternalID, List.find?_append, hf]
        simp
      have hres : entityCreate s e fresh (some iid) = ⟨iid, s ++ [⟨iid, e⟩], false⟩ := by
        rw [entityCreate.eq_def, h]
        simp [hget]
      rw [hres]
      exact ⟨rfl, hget⟩
  · rw [entityCreate_of_found s e fresh intl id h]
    exact ⟨rfl, h⟩

theorem entityCreateRuns_spec (e : String) :
    ∀ (ps : List (ℤ × Option ℤ)) (s : List EntityRow) (id0 : ℤ),
      getByExternalID s e = some id0 →
      ∀ o ∈ entityCreateRuns s e ps, o.id = id0 ∧ o.errored = false := by
  intro ps
  induction ps with
  | nil => intro s id0 _ o ho; cases ho
  | cons p rest ih =>
    intro s id0 h o ho
    obtain ⟨fresh, intl⟩ := p
    rw [entityCreateRuns, entityCreate_of_found s e fresh intl id0 h] at ho
    rcases List.mem_cons.mp ho with rfl | ho2
    · exact ⟨rfl, rfl⟩
    · exact ih s id0 h o ho2

/-- C2: Identity.create is idempotent: a first create for an external id
(possibly racing a concurrent insert, handled by the fallback lookup)
never surfaces an error, and every further create call for the same
external id - whatever fresh ids or races occur - returns the id the
first call returned and never errors (in particular never a
duplicate-key error). -/
theorem c2_identity_create_idempotent (s : List EntityRow) (e : String) (fresh : ℤ)
    (intl : Option ℤ) (rest : List (ℤ × Option ℤ)) :
    (entityCreate s e fresh intl).errored = false
    ∧ ∀ o ∈ entityCreateRuns (entityCreate s e fresh intl).table e rest,
        o.id = (entityCreate s e fresh intl).id ∧ o.errored = false := by
  obtain ⟨he, hg⟩ := entityCreate_spec s e fresh intl
  exact ⟨he, fun o ho => entityCreateRuns_spec e rest _ _ hg o ho⟩

theorem c2_identity_create_idempotent_witness :
    (entityCreate [] "user-1" 7 none).errored = false
    ∧ ((⟨7, [⟨7, "user-1"⟩], false⟩ : CreateOutcome).id = (entityCreate [] "user-1" 7 none).id
        ∧ (⟨7, [⟨7, "user-1"⟩], false⟩ : CreateOutcome).errored = false) :=
  ⟨(c2_identity_create_idempotent [] "user-1" 7 none []).1,
   (c2_identity_create_idempotent [] "user-1" 7 none [(8, none)]).2
     ⟨7, [⟨7, "user-1"⟩], false⟩ (by decide)⟩

/-- C10: Attribution panics (modelled as none) exactly when either id
exceeds 100 bytes - the only enforcement of the external-id length
limit - and otherwise stores both ids in the configuration. -/
theorem c10_attribution_guard (c : MemoriConfig) (e p : String) :
    (e.utf8ByteSize > 100 ∨ p.utf8ByteSize > 100 → attribution c e p = none)
    ∧ (e.utf8ByteSize ≤ 100 → p.utf8ByteSize ≤ 100 →
        attribution c e p = some ⟨e, p⟩) := by
  constructor
  · intro h
    rw [attribution]
    by_cases he : e.utf8ByteSize > 100
    · rw [if_pos he]
    · rcases h with h | h
      · exact absurd h he
      · rw [if_neg he, if_pos h]
  · intro h1 h2
    rw [attribution, if_neg (by omega), if_neg (by omega)]

theorem c10_attribution_guard_witness :
    attribution ⟨"", ""⟩ "user-1" "proc-1" = some ⟨"user-1", "proc-1"⟩ :=
  (c10_attribution_guard ⟨"", ""⟩ "user-1" "proc-1").2 (by decide) (by decide)

/-- C3: the similarity search fetches at most scanLimit candidate rows,
all belonging to the requested identity; returns at most limit results;
the output is sorted by descending similarity with ties among equal
scores broken by more recent date_last_time; the output is drawn (as a
sub-permutation) from the scored candidates; and every returned entry
carries exactly the cosine similarity of the query against its decoded
stored embedding. -/
theorem c3_search_by_embedding (val : ℕ → ℝ) (table : List FactRow) (eid : ℤ)
    (query : List ℝ) (limit scanLimit : ℕ) :
    (searchCandidates table eid scanLimit).length ≤ scanLimit
    ∧ (∀ r ∈ searchCandidates table eid scanLimit, r.entityID = eid ∧ r ∈ table)
    ∧ (searchByEmbedding val table eid query limit scanLimit).length ≤ limit
    ∧ List.Sorted factLE (searchByEmbedding val table eid query limit scanLimit)
    ∧ List.Subperm (searchByEmbedding val table eid query limit scanLimit)
        ((searchCandidates table eid scanLimit).map (scoreFact val query))
    ∧ ∀ x ∈ searchByEmbedding val table eid query limit scanLimit,
        ∃ r ∈ searchCandidates table eid scanLimit,
          x = scoreFact val query r
          ∧ x.score = cosineSimilarity query ((decodeEmbedding r.embedding).map val) := by
  have hsub : List.Subperm (searchByEmbedding val table eid query limit scanLimit)
      ((searchCandidates table eid scanLimit).map (scoreFact val query)) :=
    ((List.take_sublist _ _).subperm).trans (List.perm_insertionSort _ _).subperm
  refine ⟨List.length_take_le _ _, ?_, List.length_take_le _ _, ?_, hsub, ?_⟩
  · intro r hr
    have hr2 := List.mem_of_mem_take hr
    have hr3 := List.mem_filter.mp hr2
    exact ⟨by simpa using hr3.2, hr3.1⟩
  · exact List.Pairwise.sublist (List.take_sublist _ _) (List.sorted_insertionSort _ _)
  · intro x hx
    rcases List.mem_map.mp (hsub.subset hx) with ⟨r, hr, rfl⟩
    exact ⟨r, hr, rfl, rfl⟩

theorem c3_search_by_embedding_witness :
    (searchCandidates [⟨1, "f", [], 1, 0, "u", 0, none⟩] 1 3).length ≤ 3
    ∧ ((⟨1, "f", [], 1, 0, "u", 0, none⟩ : FactRow).entityID = 1
        ∧ (⟨1, "f", [], 1, 0, "u", 0, none⟩ : FactRow)
            ∈ [(⟨1, "f", [], 1, 0, "u", 0, none⟩ : FactRow)]) :=
  ⟨(c3_search_by_embedding (fun _ => 0) [⟨1, "f", [], 1, 0, "u", 0, none⟩] 1 [] 2 3).1,
   (c3_search_by_embedding (fun _ => 0) [⟨1, "f", [], 1, 0, "u", 0, none⟩] 1 [] 2 3).2.1
     ⟨1, "f", [], 1, 0, "u", 0, none⟩ (by decide)⟩

theorem executeAttempts_succ (errs : ℕ → Option String) (fuel attempt : ℕ) :
    executeAttempts errs (fuel + 1) attempt =
      match errs attempt with
      | none => (none, [])
      | some e =>
        if isRetriableError (some e) && decide (attempt < maxRetries - 1) then
          ((executeAttempts errs fuel (attempt + 1)).1,
           retryBackoffBaseMs * 2 ^ attempt :: (executeAttempts errs fuel (attempt + 1)).2)
        else (some e, []) := rfl

theorem executeAttempts_step_retriable (errs : ℕ → Option String) (fuel attempt : ℕ)
    (e : String) (he : errs attempt = some e) (hr : isRetriableError (some e) = true)
    (hlt : attempt < maxRetries - 1) :
    executeAttempts errs (fuel + 1) attempt =
      ((executeAttempts errs fuel (attempt + 1)).1,
       retryBackoffBaseMs * 2 ^ attempt :: (executeAttempts errs fuel (attempt + 1)).2) := by
  rw [executeAttempts_succ, he]
  simp [hr, hlt]

theorem executeAttempts_step_final (errs : ℕ → Option String) (fuel attempt : ℕ)
    (e : String) (he : errs attempt = some e)
    (hcond : (isRetriableError (some e) && decide (attempt < maxRetries - 1)) = false) :
    executeAttempts errs (fuel + 1) attempt = (some e, []) := by
  rw [executeAttempts_succ, he]
  simp [hcond]

/-- C4 amended: when every one of the 3 attempts fails with a
transient serialization/retry-conflict error, Execute sleeps 100ms then
200ms and returns the third attempt error itself (the synthetic
max-retries-exceeded error is unreachable); a non-transient error on the
first attempt aborts immediately, with no sleeps, returning that error
unchanged. -/
theorem c4_writer_retry (errs : ℕ → Option String) :
    ((∀ i, i < 3 → isRetriableError (errs i) = true) →
      writerExecute errs = (errs 2, [100, 200]))
    ∧ ∀ e, errs 0 = some e → isRetriableError (some e) = false →
        writerExecute errs = (some e, []) := by
  constructor
  · intro h
    have h0 := h 0 (by norm_num)
    have h1 := h 1 (by norm_num)
    have h2 := h 2 (by norm_num)
    rcases he0 : errs 0 with _ | e0
    · rw [he0] at h0; simp [isRetriableError] at h0
    rcases he1 : errs 1 with _ | e1
    · rw [he1] at h1; simp [isRetriableError] at h1
    rcases he2 : errs 2 with _ | e2
    · rw [he2] at h2; simp [isRetriableError] at h2
    rw [he0] at h0
    rw [he1] at h1
    rw [he2] at h2
    rw [writerExecute]
    show executeAttempts errs 3 0 = (some e2, [100, 200])
    have s0 := executeAttempts_step_retriable errs 2 0 e0 he0 h0 (by norm_num [maxRetries])
    have s1 := executeAttempts_step_retriable errs 1 1 e1 he1 h1 (by norm_num [maxRetries])
    have s2 := executeAttempts_step_final errs 0 2 e2 he2
      (by rw [show (decide (2 < maxRetries - 1)) = false from rfl]; simp)
    norm_num at s0 s1 s2
    rw [s0, s1, s2]
    simp [retryBackoffBaseMs]
  · intro e he hr
    rw [writerExecute]
    show executeAttempts errs 3 0 = (some e, [])
    have s := executeAttempts_step_final errs 2 0 e he (by rw [hr]; simp)
    norm_num at s
    exact s

theorem c4_writer_retry_witness :
    writerExecute (fun _ => some "serialization failure")
      = (some "serialization failure", [100, 200])
    ∧ writerExecute (fun _ => some "disk full") = (some "disk full", []) :=
  ⟨(c4_writer_retry fun _ => some "serialization failure").1 (by decide),
   (c4_writer_retry fun _ => some "disk full").2 "disk full" rfl (by decide)⟩

theorem storeEntityCreate_messages (st : Store) (e : String) :
    (storeEntityCreate st e).2.messages = st.messages := by
  unfold storeEntityCreate
  cases getByExternalID st.entities e <;> rfl

theorem storeProcessCreate_messages (st : Store) (e : String) :
    (storeProcessCreate st e).2.messages = st.messages := by
  unfold storeProcessCreate
  cases getByExternalID st.processes e <;> rfl

theorem storeSessionCreate_messages (st : Store) (ent pr : Option ℤ) (u : String) :
    (storeSessionCreate st ent pr u).2.messages = st.messages := by
  unfold storeSessionCreate
  cases (st.sessions.find? fun r => r.uuid == u).map fun r => r.id <;> rfl

theorem storeConversationCreate_messages (st : Store) (sid ttl : ℤ) :
    (storeConversationCreate st sid ttl).2.messages = st.messages := by
  unfold storeConversationCreate
  cases latestConversation st.conversations sid
  · rfl
  · dsimp only
    split <;> rfl

theorem ensure_entity_key (c : IdCache) (f : Store → ℤ × Store) (st : Store) :
    ensureCachedID c "entity_id" f st =
      match c.entityID with
      | some id => ⟨id, c, st, false⟩
      | none => ⟨(f st).1, { c with entityID := some (f st).1 }, (f st).2, true⟩ := rfl

theorem ensure_process_key (c : IdCache) (f : Store → ℤ × Store) (st : Store) :
    ensureCachedID c "process_id" f st =
      match c.processID with
      | some id => ⟨id, c, st, false⟩
      | none => ⟨(f st).1, { c with processID := some (f st).1 }, (f st).2, true⟩ := rfl

theorem ensure_session_key (c : IdCache) (f : Store → ℤ × Store) (st : Store) :
    ensureCachedID c "session_id" f st =
      match c.sessionID with
      | some id => ⟨id, c, st, false⟩
      | none => ⟨(f st).1, { c with sessionID := some (f st).1 }, (f st).2, true⟩ := rfl

theorem ensure_conversation_key (c : IdCache) (f : Store → ℤ × Store) (st : Store) :
    ensureCachedID c "conversation_id" f st =
      match c.conversationID with
      | some id => ⟨id, c, st, false⟩
      | none => ⟨(f st).1, { c with conversationID := some (f st).1 }, (f st).2, true⟩ := rfl

theorem resolveIDs_store_messages (cfg : WriterConfig) (c : IdCache) (st : Store) :
    (resolveIDs cfg c st).store.messages = st.messages := by
  obtain ⟨cv, en, pr, sn⟩ := c
  by_cases he : cfg.entityID = "" <;> by_cases hp : cfg.processID = "" <;>
    simp only [resolveIDs, he, hp, ne_eq, not_true_eq_false, not_false_eq_true, if_true,
      if_false, ite_true, ite_false, ensure_entity_key, ensure_process_key,
      ensure_session_key, ensure_conversation_key] <;>
    rcases en with _ | a <;> rcases pr with _ | b <;>
      rcases sn with _ | s1 <;> rcases cv with _ | v <;>
    simp [storeEntityCreate_messages, storeProcessCreate_messages,
      storeSessionCreate_messages, storeConversationCreate_messages]

theorem writeNonSystemMessages_eq (msgs : List WMessage) (cid : ℤ) (rows : List MessageRow) :
    writeNonSystemMessages msgs cid rows =
      rows ++ (msgs.filter fun m => !(m.role == "system")).map
        (fun m => ⟨cid, m.role, m.msgType, m.content⟩) := by
  induction msgs generalizing rows with
  | nil => simp [writeNonSystemMessages]
  | cons m rest ih =>
    by_cases hm : m.role = "system"
    · simp [writeNonSystemMessages, hm, ih]
    · simp [writeNonSystemMessages, hm, ih]

/-- C5 amended: executeTransaction appends to the message store exactly
the non-system messages of the payload list (system-role entries of the
list are skipped), followed by the response message whenever it is
present - with no role check on the response.  The stored-roles
invariant therefore holds exactly when the response is absent or
non-system. -/
theorem c5_message_writes (cfg : WriterConfig) (c : IdCache) (st : Store) (p : WriterPayload) :
    (executeTransaction cfg c st p).store.messages =
      st.messages
      ++ ((p.messages.filter fun m => !(m.role == "system")).map
            fun m => ⟨(executeTransaction cfg c st p).conversationID, m.role, m.msgType, m.content⟩)
      ++ (match p.response with
          | some resp =>
              [⟨(executeTransaction cfg c st p).conversationID, resp.role, resp.msgType, resp.content⟩]
          | none => []) := by
  obtain ⟨msgs, resp⟩ := p
  have hconv : (executeTransaction cfg c st ⟨msgs, resp⟩).conversationID
      = (resolveIDs cfg c st).conversationID := rfl
  rw [hconv]
  cases resp with
  | none =>
    show writeNonSystemMessages msgs (resolveIDs cfg c st).conversationID
        (resolveIDs cfg c st).store.messages = _
    rw [writeNonSystemMessages_eq, resolveIDs_store_messages]
    simp
  | some r =>
    show writeNonSystemMessages msgs (resolveIDs cfg c st).conversationID
        (resolveIDs cfg c st).store.messages ++ [_] = _
    rw [writeNonSystemMessages_eq, resolveIDs_store_messages]

theorem resolveIDs_idempotent (cfg : WriterConfig) (c : IdCache) (st st2 : Store)
    (he : cfg.entityID ≠ "") (hp : cfg.processID ≠ "") :
    resolveIDs cfg (resolveIDs cfg c st).cache st2 =
      ⟨(resolveIDs cfg c st).conversationID, (resolveIDs cfg c st).cache, st2,
       false, false, false, false⟩ := by
  obtain ⟨cv, en, pr, sn⟩ := c
  simp only [resolveIDs, he, hp, ne_eq, not_false_eq_true, if_true, ite_true,
    ensure_entity_key, ensure_process_key, ensure_session_key, ensure_conversation_key]
  rcases en with _ | a <;> rcases pr with _ | b <;>
    rcases sn with _ | s1 <;> rcases cv with _ | v <;>
  simp

/-- C6: once an executeTransaction call has resolved the Identity,
Process, Session and Conversation ids for a configuration with
non-empty external ids, a subsequent call on the resulting cache runs no
repository create/get for any of the four ids (all invoked flags are
false), serves the same conversation id, leaves the cache unchanged,
and touches none of the entity/process/session/conversation tables. -/
theorem c6_cached_ids (cfg : WriterConfig) (c : IdCache) (st : Store) (p1 p2 : WriterPayload)
    (r1 r2 : ExecResult) (he : cfg.entityID ≠ "") (hp : cfg.processID ≠ "")
    (h1 : r1 = executeTransaction cfg c st p1)
    (h2 : r2 = executeTransaction cfg r1.cache r1.store p2) :
    r2.invokedEntity = false ∧ r2.invokedProcess = false ∧ r2.invokedSession = false
    ∧ r2.invokedConversation = false ∧ r2.conversationID = r1.conversationID
    ∧ r2.cache = r1.cache
    ∧ r2.store.entities = r1.store.entities ∧ r2.store.processes = r1.store.processes
    ∧ r2.store.sessions = r1.store.sessions
    ∧ r2.store.conversations = r1.store.conversations := by
  subst h1 h2
  have hcache : (executeTransaction cfg c st p1).cache = (resolveIDs cfg c st).cache := rfl
  have hconv : (executeTransaction cfg c st p1).conversationID
      = (resolveIDs cfg c st).conversationID := rfl
  have hkey := resolveIDs_idempotent cfg c st (executeTransaction cfg c st p1).store he hp
  refine ⟨?_, ?_, ?_, ?_, ?_, ?_, ?_, ?_, ?_, ?_⟩
  · show (resolveIDs cfg (executeTransaction cfg c st p1).cache
        (executeTransaction cfg c st p1).store).invokedEntity = false
    rw [hcache, hkey]
  · show (resolveIDs cfg (executeTransaction cfg c st p1).cache
        (executeTransaction cfg c st p1).store).invokedProcess = false
    rw [hcache, hkey]
  · show (resolveIDs cfg (executeTransaction cfg c st p1).cache
        (executeTransaction cfg c st p1).store).invokedSession = false
    rw [hcache, hkey]
  · show (resolveIDs cfg (executeTransaction cfg c st p1).cache
        (executeTransaction cfg c st p1).store).invokedConversation = false
    rw [hcache, hkey]
  · show (resolveIDs cfg (executeTransaction cfg c st p1).cache
        (executeTransaction cfg c st p1).store).conversationID
      = (executeTransaction cfg c st p1).conversationID
    rw [hcache, hkey, hconv]
  · show (resolveIDs cfg (executeTransaction cfg c st p1).cache
        (executeTransaction cfg c st p1).store).cache
      = (executeTransaction cfg c st p1).cache
    rw [hcache, hkey]
  · show (resolveIDs cfg (executeTransaction cfg c st p1).cache
        (executeTransaction cfg c st p1).store).store.entities
      = (executeTransaction cfg c st p1).store.entities
    rw [hcache, hkey]
  · show (resolveIDs cfg (executeTransaction cfg c st p1).cache
        (executeTransaction cfg c st p1).store).store.processes
      = (executeTransaction cfg c st p1).store.processes
    rw [hcache, hkey]
  · show (resolveIDs cfg (executeTransaction cfg c st p1).cache
        (executeTransaction cfg c st p1).store).store.sessions
      = (executeTransaction cfg c st p1).store.sessions
    rw [hcache, hkey]
  · show (resolveIDs cfg (executeTransaction cfg c st p1).cache
        (executeTransaction cfg c st p1).store).store.conversations
      = (executeTransaction cfg c st p1).store.conversations
    rw [hcache, hkey]

theorem c6_cached_ids_witness :
    (executeTransaction ⟨"u", "p", "s", 30⟩
      (executeTransaction ⟨"u", "p", "s", 30⟩ ⟨none, none, none, none⟩
        ⟨[], [], [], [], [], 1, 0⟩ ⟨[], none⟩).cache
      (executeTransaction ⟨"u", "p", "s", 30⟩ ⟨none, none, none, none⟩
        ⟨[], [], [], [], [], 1, 0⟩ ⟨[], none⟩).store ⟨[], none⟩).invokedEntity = false :=
  (c6_cached_ids ⟨"u", "p", "s", 30⟩ ⟨none, none, none, none⟩ ⟨[], [], [], [], [], 1, 0⟩
    ⟨[], none⟩ ⟨[], none⟩ _ _ (by decide) (by decide) rfl rfl).1

end Memorigo
